import Mathlib

/-!
Verification development for the rhizomatic wiki-history scraper
(src/rhizomatic.py). The Python program paginates through rendered
HTML listings of page revisions or user contributions, extracts
(editor, timestamp, page) triples, and writes them to a CSV file.

Shallow embedding choices:
* The HTTP layer (the requests library) is abstracted by an oracle: a
  list of fetch outcomes consumed in order, one per GET issued by the
  loop. An outcome is either a response or a network fault
  (RequestException).
* The lxml xpath extraction is abstracted at its output boundary: a
  response carries the two extracted text columns that the two xpath
  queries of each mode would return.
* The dateutil date parser is an external dependency and is abstracted
  as a parameter of type String to Option DateTime; none models a
  parse exception.
* Python exceptions are modelled explicitly: the try body of each loop
  is a function returning a TryOutcome that records whether the loop
  broke normally, left with an exception in flight, or ran past the
  end of the oracle (a surrogate for the unbounded while-True loop).
  The finally-return of the source, which discards any in-flight
  exception, is then a total function on TryOutcome.
-/

/-- Triple models one edit record: (editor, timestamp, page title). -/
abbrev Triple := String × String × String

/-- OffVal models the dynamic type of the Python offset variable: a
string initially (the keyword argument default is the empty string),
an int after recomputation at line 66 / 106. -/
inductive OffVal where
  | str (s : String)
  | int (n : Nat)
deriving Repr, DecidableEq

/-- DateTime models the fields of a parsed datetime object that the
strftime format string of the source reads. -/
structure DateTime where
  year : Nat
  month : Nat
  day : Nat
  hour : Nat
  minute : Nat
  second : Nat
deriving Repr, DecidableEq

/-- Exn models the Python exception classes that can cross the try
boundary of either pagination loop, plus the ValueError raised by the
title extraction of get_page_history before its loop. -/
inductive Exn where
  | valueError
  | requestError
  | attributeError
  | parseError
  | indexError
deriving Repr, DecidableEq

/-- padNum w n zero-pads the decimal numeral of n to width w, as the
strftime directives of the source do. -/
def padNum (w n : Nat) : List Char :=
  List.replicate (w - (Nat.toDigits 10 n).length) '0' ++ Nat.toDigits 10 n

/-- strftimeYmdHMS embeds last_page_date.strftime of the source with
the fixed format Y m d H M S, each zero padded, as a character list. -/
def strftimeYmdHMS (d : DateTime) : List Char :=
  padNum 4 d.year ++ padNum 2 d.month ++ padNum 2 d.day ++
    padNum 2 d.hour ++ padNum 2 d.minute ++ padNum 2 d.second

/-- deriveOffset embeds `int(last_page_date.strftime('%Y%m%d%H%M%S'))`
(lines 66 and 106): the strftime output is a digit string and int
reads it as a base-10 numeral. -/
def deriveOffset (d : DateTime) : Nat :=
  (strftimeYmdHMS d).foldl (fun acc c => acc * 10 + (c.toNat - '0'.toNat)) 0

/-- splitOnSlash splits a character list at every slash, keeping
empty segments, like the Python str.split with separator slash. -/
def splitOnSlash : List Char → List (List Char)
  | [] => [[]]
  | c :: cs =>
    match splitOnSlash cs with
    | [] => [[]]
    | r :: rs => if c = '/' then [] :: r :: rs else (c :: r) :: rs

/-- titleFromUrl embeds `re.search(r'.*/([^/]+)+', url)` followed by
group(1) (lines 37-40, 79 and 92): the result is the last maximal
nonempty run of non-slash characters that is preceded by a slash, and
none when the search finds no match. This agrees with the Python
regex on every string without a newline character (the Python dot
does not match a newline); no claim involves newlines in URLs. -/
def titleFromUrl (url : String) : Option String :=
  ((((splitOnSlash url.data).drop 1).filter (fun seg => seg ≠ [])).getLast?).map
    (fun seg => ⟨seg⟩)

/-- extractTitles embeds the list comprehension of lines 92-95: apply
the title regex to every contribution href, left to right, and abort
with none as soon as one href has no match (in Python, group(1) on
None raises AttributeError, which aborts the whole comprehension). -/
def extractTitles : List String → Option (List String)
  | [] => some []
  | url :: rest =>
    match titleFromUrl url with
    | none => none
    | some t =>
      match extractTitles rest with
      | none => none
      | some ts => some (t :: ts)

/-- Fetch models one step of the HTTP oracle: either a response or a
network fault (RequestException raised by requests.get). -/
inductive Fetch (ρ : Type) where
  | fail
  | resp (r : ρ)

/-- PageResponse models one history-listing response in page mode at
the extraction boundary: the HTTP status code and the two text
columns that the two xpath queries of lines 58-59 return. -/
structure PageResponse where
  status : Nat
  editors : List String
  editTimes : List String
deriving Repr, DecidableEq

/-- UserResponse models one contributions-listing response in user
mode: the HTTP status code, the timestamp column of line 91 and the
contribution hrefs of line 94. -/
structure UserResponse where
  status : Nat
  editTimes : List String
  contribHrefs : List String
deriving Repr, DecidableEq

/-- LoopState carries the mutable state of one pagination loop: the
number of GET calls issued so far, the accumulated all_entries list,
and the current offset variable. -/
structure LoopState where
  fetches : Nat
  entries : List Triple
  offset : OffVal
deriving Repr, DecidableEq

/-- TryOutcome records how control leaves the try body of a
pagination loop: broke is the normal break of line 63 / 103, raised
is an exception in flight when leaving the try block, fuelOut means
the oracle ran out while the loop would have kept fetching. -/
inductive TryOutcome where
  | broke (s : LoopState)
  | raised (e : Exn) (s : LoopState)
  | fuelOut (s : LoopState)
deriving Repr, DecidableEq

/-- state projects the loop state out of any outcome. -/
def TryOutcome.state : TryOutcome → LoopState
  | .broke s => s
  | .raised _ s => s
  | .fuelOut s => s

/-- pageEntries embeds lines 58-60: zip the editor column with the
timestamp column and tag each pair with the fixed page title. -/
def pageEntries (title : String) (r : PageResponse) : List Triple :=
  (r.editors.zip r.editTimes).map (fun et => (et.1, et.2, title))

/-- userEntriesFrom embeds lines 97-100: zip the timestamp column
with the extracted titles and tag each pair with the fixed username. -/
def userEntriesFrom (username : String) (editTimes titles : List String) : List Triple :=
  (editTimes.zip titles).map (fun tt => (username, tt.1, tt.2))

/-- userEntries is the record batch one user-mode fetch would
contribute, empty when title extraction aborts. -/
def userEntries (username : String) (r : UserResponse) : List Triple :=
  match extractTitles r.contribHrefs with
  | none => []
  | some titles => userEntriesFrom username r.editTimes titles

/-- pageTryLoop embeds the try body of get_page_history (lines
49-67). Each oracle element is one GET. A network fault raises
RequestException with all_entries unchanged. Otherwise the batch is
zipped and appended (line 61); a short batch breaks (lines 62-63); a
full batch reads the last element of the timestamp column (an
IndexError if that column is empty), parses it (a parse exception if
the date parser fails), and recurses with the recomputed offset
(lines 65-67). The page-mode loop never reads the response status. -/
def pageTryLoop (dparse : String → Option DateTime) (title : String) (limit : Nat) :
    LoopState → List (Fetch PageResponse) → TryOutcome
  | st, [] => .fuelOut st
  | st, .fail :: _ => .raised .requestError ⟨st.fetches + 1, st.entries, st.offset⟩
  | st, .resp r :: rest =>
    let entries := pageEntries title r
    let acc := st.entries ++ entries
    if entries.length < limit then
      .broke ⟨st.fetches + 1, acc, st.offset⟩
    else
      match r.editTimes.getLast? with
      | none => .raised .indexError ⟨st.fetches + 1, acc, st.offset⟩
      | some ts =>
        match dparse ts with
        | none => .raised .parseError ⟨st.fetches + 1, acc, st.offset⟩
        | some d =>
          pageTryLoop dparse title limit
            ⟨st.fetches + 1, acc, .int (deriveOffset d)⟩ rest

/-- userTryLoop embeds the try body of get_user_edit_history (lines
82-107). It differs from the page loop in two places: the call to
raise_for_status at line 89 turns any status in [400, 600) into a
RequestException before extraction, and the title extraction over the
contribution hrefs can raise AttributeError (lines 92-95), aborting
the batch of the current fetch before anything is appended. -/
def userTryLoop (dparse : String → Option DateTime) (username : String) (limit : Nat) :
    LoopState → List (Fetch UserResponse) → TryOutcome
  | st, [] => .fuelOut st
  | st, .fail :: _ => .raised .requestError ⟨st.fetches + 1, st.entries, st.offset⟩
  | st, .resp r :: rest =>
    if 400 ≤ r.status ∧ r.status < 600 then
      .raised .requestError ⟨st.fetches + 1, st.entries, st.offset⟩
    else
      match extractTitles r.contribHrefs with
      | none => .raised .attributeError ⟨st.fetches + 1, st.entries, st.offset⟩
      | some titles =>
        let entries := userEntriesFrom username r.editTimes titles
        let acc := st.entries ++ entries
        if entries.length < limit then
          .broke ⟨st.fetches + 1, acc, st.offset⟩
        else
          match r.editTimes.getLast? with
          | none => .raised .indexError ⟨st.fetches + 1, acc, st.offset⟩
          | some ts =>
            match dparse ts with
            | none => .raised .parseError ⟨st.fetches + 1, acc, st.offset⟩
            | some d =>
              userTryLoop dparse username limit
                ⟨st.fetches + 1, acc, .int (deriveOffset d)⟩ rest

/-- finallyReturn embeds the finally block (line 71-72 / 112-113):
whatever way control leaves the try body, the return statement in the
finally block returns all_entries and discards any in-flight
exception. -/
def finallyReturn (o : TryOutcome) : List Triple :=
  o.state.entries

/-- get_page_history embeds lines 35-72: extract the page title from
the URL (raising ValueError to the caller when the regex has no
match, lines 41-43, before any fetch), then run the pagination loop;
the finally-return converts every loop outcome into a normal return
of the accumulated entries. The result is none only when the oracle
is too short to determine the outcome. -/
def get_page_history (dparse : String → Option DateTime)
    (oracle : List (Fetch PageResponse)) (wiki_url : String)
    (offset : String := "") (limit : Nat := 500) :
    Option (Except Exn (List Triple)) :=
  match titleFromUrl wiki_url with
  | none => some (.error .valueError)
  | some title =>
    match pageTryLoop dparse title limit ⟨0, [], .str offset⟩ oracle with
    | .fuelOut _ => none
    | o => some (.ok (finallyReturn o))

/-- get_user_edit_history embeds lines 75-113: run the user-mode
pagination loop; the finally-return converts every loop outcome into
a normal return of the accumulated entries. The result is none only
when the oracle is too short to determine the outcome. -/
def get_user_edit_history (dparse : String → Option DateTime)
    (oracle : List (Fetch UserResponse)) (username : String)
    (offset : String := "") (limit : Nat := 500) :
    Option (Except Exn (List Triple)) :=
  match userTryLoop dparse username limit ⟨0, [], .str offset⟩ oracle with
  | .fuelOut _ => none
  | o => some (.ok (finallyReturn o))

/-! Step lemmas: one unfolding of each loop per oracle element. -/

theorem pageTryLoop_fail (dparse : String → Option DateTime) (title : String)
    (limit : Nat) (st : LoopState) (rest : List (Fetch PageResponse)) :
    pageTryLoop dparse title limit st (.fail :: rest) =
      .raised .requestError ⟨st.fetches + 1, st.entries, st.offset⟩ := rfl

theorem pageTryLoop_short (dparse : String → Option DateTime) (title : String)
    (limit : Nat) (st : LoopState) (r : PageResponse) (rest : List (Fetch PageResponse))
    (h : (pageEntries title r).length < limit) :
    pageTryLoop dparse title limit st (.resp r :: rest) =
      .broke ⟨st.fetches + 1, st.entries ++ pageEntries title r, st.offset⟩ := by
  simp [pageTryLoop, h]

theorem pageTryLoop_full (dparse : String → Option DateTime) (title : String)
    (limit : Nat) (st : LoopState) (r : PageResponse) (rest : List (Fetch PageResponse))
    (ts : String) (d : DateTime)
    (hlen : ¬ (pageEntries title r).length < limit)
    (hlast : r.editTimes.getLast? = some ts)
    (hd : dparse ts = some d) :
    pageTryLoop dparse title limit st (.resp r :: rest) =
      pageTryLoop dparse title limit
        ⟨st.fetches + 1, st.entries ++ pageEntries title r, .int (deriveOffset d)⟩ rest := by
  simp [pageTryLoop, hlen, hlast, hd]

theorem userTryLoop_fail (dparse : String → Option DateTime) (username : String)
    (limit : Nat) (st : LoopState) (rest : List (Fetch UserResponse)) :
    userTryLoop dparse username limit st (.fail :: rest) =
      .raised .requestError ⟨st.fetches + 1, st.entries, st.offset⟩ := rfl

theorem userTryLoop_badStatus (dparse : String → Option DateTime) (username : String)
    (limit : Nat) (st : LoopState) (r : UserResponse) (rest : List (Fetch UserResponse))
    (h : 400 ≤ r.status ∧ r.status < 600) :
    userTryLoop dparse username limit st (.resp r :: rest) =
      .raised .requestError ⟨st.fetches + 1, st.entries, st.offset⟩ := by
  simp [userTryLoop, h]

theorem userTryLoop_noMatch (dparse : String → Option DateTime) (username : String)
    (limit : Nat) (st : LoopState) (r : UserResponse) (rest : List (Fetch UserResponse))
    (hs : ¬ (400 ≤ r.status ∧ r.status < 600))
    (hT : extractTitles r.contribHrefs = none) :
    userTryLoop dparse username limit st (.resp r :: rest) =
      .raised .attributeError ⟨st.fetches + 1, st.entries, st.offset⟩ := by
  simp [userTryLoop, hs, hT]

theorem userTryLoop_short (dparse : String → Option DateTime) (username : String)
    (limit : Nat) (st : LoopState) (r : UserResponse) (rest : List (Fetch UserResponse))
    (titles : List String)
    (hs : ¬ (400 ≤ r.status ∧ r.status < 600))
    (hT : extractTitles r.contribHrefs = some titles)
    (h : (userEntriesFrom username r.editTimes titles).length < limit) :
    userTryLoop dparse username limit st (.resp r :: rest) =
      .broke ⟨st.fetches + 1, st.entries ++ userEntriesFrom username r.editTimes titles,
        st.offset⟩ := by
  simp [userTryLoop, hs, hT, h]

theorem userTryLoop_full (dparse : String → Option DateTime) (username : String)
    (limit : Nat) (st : LoopState) (r : UserResponse) (rest : List (Fetch UserResponse))
    (titles : List String) (ts : String) (d : DateTime)
    (hs : ¬ (400 ≤ r.status ∧ r.status < 600))
    (hT : extractTitles r.contribHrefs = some titles)
    (hlen : ¬ (userEntriesFrom username r.editTimes titles).length < limit)
    (hlast : r.editTimes.getLast? = some ts)
    (hd : dparse ts = some d) :
    userTryLoop dparse username limit st (.resp r :: rest) =
      userTryLoop dparse username limit
        ⟨st.fetches + 1, st.entries ++ userEntriesFrom username r.editTimes titles,
          .int (deriveOffset d)⟩ rest := by
  simp [userTryLoop, hs, hT, hlen, hlast, hd]

theorem userEntries_of_extract (username : String) (r : UserResponse)
    (titles : List String) (hT : extractTitles r.contribHrefs = some titles) :
    userEntries username r = userEntriesFrom username r.editTimes titles := by
  simp [userEntries, hT]

/-! Run lemmas: a block of full, parseable pages advances the loop by
one fetch per page and appends the concatenation of their batches. -/

/-- FullGoodPage states that a page-mode response yields a full batch
whose last timestamp-column entry the date parser accepts, so the
loop continues past it. -/
def FullGoodPage (dparse : String → Option DateTime) (title : String) (limit : Nat)
    (r : PageResponse) : Prop :=
  ¬ (pageEntries title r).length < limit ∧
    ∃ ts d, r.editTimes.getLast? = some ts ∧ dparse ts = some d

/-- FullGoodUser states that a user-mode response passes the status
check, has all contribution titles extractable, yields a full batch,
and has a parseable last timestamp-column entry. -/
def FullGoodUser (dparse : String → Option DateTime) (username : String) (limit : Nat)
    (r : UserResponse) : Prop :=
  ¬ (400 ≤ r.status ∧ r.status < 600) ∧
    (∃ titles, extractTitles r.contribHrefs = some titles) ∧
    ¬ (userEntries username r).length < limit ∧
    ∃ ts d, r.editTimes.getLast? = some ts ∧ dparse ts = some d

theorem pageTryLoop_run (dparse : String → Option DateTime) (title : String)
    (limit : Nat) :
    ∀ goods : List PageResponse, (∀ r ∈ goods, FullGoodPage dparse title limit r) →
    ∀ (st : LoopState) (tail : List (Fetch PageResponse)), ∃ off,
      pageTryLoop dparse title limit st (goods.map .resp ++ tail) =
        pageTryLoop dparse title limit
          ⟨st.fetches + goods.length, st.entries ++ (goods.map (pageEntries title)).flatten,
            off⟩ tail := by
  intro goods
  induction goods with
  | nil => intro _ st tail; exact ⟨st.offset, by simp⟩
  | cons g gs ih =>
    intro hall st tail
    obtain ⟨hlen, ts, d, hlast, hd⟩ := hall g (by simp)
    obtain ⟨off, hoff⟩ := ih (fun r hr => hall r (by simp [hr]))
      ⟨st.fetches + 1, st.entries ++ pageEntries title g, .int (deriveOffset d)⟩ tail
    refine ⟨off, ?_⟩
    rw [List.map_cons, List.cons_append,
      pageTryLoop_full dparse title limit st g _ ts d hlen hlast hd, hoff]
    simp [Nat.add_assoc, Nat.add_comm 1 gs.length]

theorem userTryLoop_run (dparse : String → Option DateTime) (username : String)
    (limit : Nat) :
    ∀ goods : List UserResponse, (∀ r ∈ goods, FullGoodUser dparse username limit r) →
    ∀ (st : LoopState) (tail : List (Fetch UserResponse)), ∃ off,
      userTryLoop dparse username limit st (goods.map .resp ++ tail) =
        userTryLoop dparse username limit
          ⟨st.fetches + goods.length,
            st.entries ++ (goods.map (userEntries username)).flatten, off⟩ tail := by
  intro goods
  induction goods with
  | nil => intro _ st tail; exact ⟨st.offset, by simp⟩
  | cons g gs ih =>
    intro hall st tail
    obtain ⟨hs, ⟨titles, hT⟩, hlen, ts, d, hlast, hd⟩ := hall g (by simp)
    rw [userEntries_of_extract username g titles hT] at hlen
    obtain ⟨off, hoff⟩ := ih (fun r hr => hall r (by simp [hr]))
      ⟨st.fetches + 1, st.entries ++ userEntriesFrom username g.editTimes titles,
        .int (deriveOffset d)⟩ tail
    refine ⟨off, ?_⟩
    rw [List.map_cons, List.cons_append,
      userTryLoop_full dparse username limit st g _ titles ts d hs hT hlen hlast hd, hoff]
    simp [Nat.add_assoc, Nat.add_comm 1 gs.length, userEntries_of_extract username g titles hT]

/-!
CSV writer (write_tuples_to_csv, lines 116-122) and a model of the
Python csv.reader used to state the round-trip property. The csv
module default dialect writes fields separated by commas, terminates
each record with CR LF, and under QUOTE_MINIMAL quotes a field
exactly when it contains a comma, a double quote, CR or LF, doubling
every embedded double quote.
-/

/-- isCsvSpecial recognises the characters that force quoting under
the default csv dialect: the delimiter, the quote character, and the
characters of the line terminator. -/
def isCsvSpecial (c : Char) : Bool :=
  c = ',' || c = '"' || c = '\r' || c = '\n'

/-- escapeQuotes doubles every embedded double quote, as the csv
writer does inside a quoted field. -/
def escapeQuotes : List Char → List Char
  | [] => []
  | c :: cs => if c = '"' then '"' :: '"' :: escapeQuotes cs else c :: escapeQuotes cs

/-- renderField serialises one field under QUOTE_MINIMAL: quoted with
doubled inner quotes when it contains a special character, verbatim
otherwise. -/
def renderField (s : String) : List Char :=
  if s.data.any isCsvSpecial then '"' :: (escapeQuotes s.data ++ ['"']) else s.data

/-- renderRowChars serialises one record: fields joined by commas,
record terminated by CR LF (the csv.writer default lineterminator). -/
def renderRowChars : List String → List Char
  | [] => ['\r', '\n']
  | f :: fs =>
    renderField f ++
      (match fs with
       | [] => ['\r', '\n']
       | _ :: _ => ',' :: renderRowChars fs)

/-- csvContentChars concatenates the serialised records in order. -/
def csvContentChars : List (List String) → List Char
  | [] => []
  | row :: rows => renderRowChars row ++ csvContentChars rows

/-- csvHeaders is the fixed header row of line 118. -/
def csvHeaders : List String := ["editor", "timestamp", "page"]

/-- rowOfTriple is the row the csv writer receives for one triple. -/
def rowOfTriple (t : Triple) : List String := [t.1, t.2.1, t.2.2]

/-- write_tuples_to_csv embeds lines 116-122: the file content is the
header row followed by one row per triple in input order. -/
def write_tuples_to_csv (editing_history : List Triple) : String :=
  ⟨csvContentChars (csvHeaders :: editing_history.map rowOfTriple)⟩

/-- writeFileW models opening a path in write mode: the file system
maps the path to the new content, all other paths unchanged, any
previous content at the path overwritten. -/
def writeFileW (fs : String → Option String) (path content : String) :
    String → Option String :=
  fun p => if p = path then some content else fs p

/-- write_tuples_to_csv_fs is the file-system effect of the writer:
it overwrites output_file with the rendered CSV content. -/
def write_tuples_to_csv_fs (fs : String → Option String)
    (editing_history : List Triple) (output_file : String) :
    String → Option String :=
  writeFileW fs output_file (write_tuples_to_csv editing_history)

/-- parseBare reads an unquoted field: everything up to the next
delimiter or line-terminator character, which is left in the rest. -/
def parseBare : List Char → List Char × List Char
  | [] => ([], [])
  | c :: rest =>
    if c = ',' ∨ c = '\r' ∨ c = '\n' then ([], c :: rest)
    else
      let fr := parseBare rest
      (c :: fr.1, fr.2)

/-- parseQuoted reads the body of a quoted field after the opening
quote, undoing doubled quotes, until the closing quote. -/
def parseQuoted : List Char → List Char → List Char × List Char
  | acc, [] => (acc.reverse, [])
  | acc, c :: rest =>
    if c = '"' then
      match rest with
      | '"' :: rest2 => parseQuoted ('"' :: acc) rest2
      | _ => (acc.reverse, rest)
    else parseQuoted (c :: acc) rest

/-- parseField reads one field, quoted or bare. -/
def parseField : List Char → List Char × List Char
  | [] => ([], [])
  | c :: rest => if c = '"' then parseQuoted [] rest else parseBare (c :: rest)

theorem parseBare_len (cs : List Char) : (parseBare cs).2.length ≤ cs.length := by
  induction cs with
  | nil => simp [parseBare]
  | cons c rest ih =>
    by_cases h : c = ',' ∨ c = '\r' ∨ c = '\n'
    · simp [parseBare, h]
    · simp [parseBare, h]; omega

theorem parseQuoted_step (acc : List Char) (c : Char) (rest : List Char)
    (h : ¬ c = '"') :
    parseQuoted acc (c :: rest) = parseQuoted (c :: acc) rest := by
  conv_lhs => rw [parseQuoted.eq_def]
  simp [h]

theorem parseQuoted_close (acc : List Char) (rest : List Char)
    (h : ∀ rest2, rest ≠ '"' :: rest2) :
    parseQuoted acc ('"' :: rest) = (acc.reverse, rest) := by
  conv_lhs => rw [parseQuoted.eq_def]
  match rest with
  | [] => simp
  | c2 :: rest2 =>
    have hne : c2 ≠ '"' := fun hc => h rest2 (by rw [hc])
    simp [hne]

theorem parseQuoted_len (acc cs : List Char) :
    (parseQuoted acc cs).2.length ≤ cs.length := by
  induction acc, cs using parseQuoted.induct with
  | case1 acc => simp [parseQuoted]
  | case2 acc rest2 ih => simp only [parseQuoted]; simp; omega
  | case3 acc rest h =>
    rw [parseQuoted_close acc rest (fun r2 hr => h r2 hr)]
    simp
  | case4 acc c rest h ih =>
    rw [parseQuoted_step acc c rest h]
    simp only [List.length_cons]
    omega

theorem parseField_len (cs : List Char) : (parseField cs).2.length ≤ cs.length := by
  match cs with
  | [] => simp [parseField]
  | c :: rest =>
    by_cases h : c = '"'
    · simp only [parseField, if_pos h]
      exact (parseQuoted_len [] rest).trans (by simp)
    · simp only [parseField, if_neg h]
      exact parseBare_len (c :: rest)

/-- parseRecord reads one record: fields separated by commas until a
line terminator (CR LF, or a lone CR or LF) or end of input. It
models one row read by the Python csv.reader. -/
def parseRecord (cs : List Char) : List String × List Char :=
  match hf : (parseField cs).2 with
  | ',' :: rest =>
    let rr := parseRecord rest
    (⟨(parseField cs).1⟩ :: rr.1, rr.2)
  | '\r' :: '\n' :: rest => ([⟨(parseField cs).1⟩], rest)
  | '\r' :: rest => ([⟨(parseField cs).1⟩], rest)
  | '\n' :: rest => ([⟨(parseField cs).1⟩], rest)
  | _ => ([⟨(parseField cs).1⟩], [])
termination_by cs.length
decreasing_by
  have h := parseField_len cs
  rw [hf] at h
  simp only [List.length_cons] at h
  omega

theorem parseRecord_comma (cs f rest : List Char)
    (h : parseField cs = (f, ',' :: rest)) :
    parseRecord cs = (⟨f⟩ :: (parseRecord rest).1, (parseRecord rest).2) := by
  rw [parseRecord.eq_def]
  split
  next r2 heq => rw [h] at heq; simp at heq; subst heq; simp [h]
  next r2 heq => rw [h] at heq; simp at heq
  next r2 hnot heq => rw [h] at heq; simp at heq
  next r2 heq => rw [h] at heq; simp at heq
  next hn1 hn2 hn3 hn4 => exact ((hn1 rest (by rw [h])).elim)

theorem parseRecord_crlf (cs f rest : List Char)
    (h : parseField cs = (f, '\r' :: '\n' :: rest)) :
    parseRecord cs = ([⟨f⟩], rest) := by
  rw [parseRecord.eq_def]
  split
  next r2 heq => rw [h] at heq; simp at heq
  next r2 heq => rw [h] at heq; simp at heq; subst heq; simp [h]
  next r2 hnot heq =>
    rw [h] at heq; simp at heq
    exact ((hnot rest heq.symm).elim)
  next r2 heq => rw [h] at heq; simp at heq
  next hn1 hn2 hn3 hn4 => exact ((hn2 rest (by rw [h])).elim)

theorem parseRecord_cr (cs f rest : List Char)
    (h : parseField cs = (f, '\r' :: rest))
    (hr : ∀ r2, rest ≠ '\n' :: r2) :
    parseRecord cs = ([⟨f⟩], rest) := by
  rw [parseRecord.eq_def]
  split
  next r2 heq => rw [h] at heq; simp at heq
  next r2 heq =>
    rw [h] at heq; simp at heq
    exact ((hr r2 heq).elim)
  next r2 hnot heq => rw [h] at heq; simp at heq; subst heq; simp [h]
  next r2 heq => rw [h] at heq; simp at heq
  next hn1 hn2 hn3 hn4 => exact ((hn3 rest (by rw [h])).elim)

theorem parseRecord_lf (cs f rest : List Char)
    (h : parseField cs = (f, '\n' :: rest)) :
    parseRecord cs = ([⟨f⟩], rest) := by
  rw [parseRecord.eq_def]
  split
  next r2 heq => rw [h] at heq; simp at heq
  next r2 heq => rw [h] at heq; simp at heq
  next r2 hnot heq => rw [h] at heq; simp at heq
  next r2 heq => rw [h] at heq; simp at heq; subst heq; simp [h]
  next hn1 hn2 hn3 hn4 => exact ((hn4 rest (by rw [h])).elim)

theorem parseRecord_other (cs : List Char)
    (hn1 : ∀ rest, (parseField cs).2 ≠ ',' :: rest)
    (hn2 : ∀ rest, (parseField cs).2 ≠ '\r' :: '\n' :: rest)
    (hn3 : ∀ rest, (parseField cs).2 ≠ '\r' :: rest)
    (hn4 : ∀ rest, (parseField cs).2 ≠ '\n' :: rest) :
    parseRecord cs = ([⟨(parseField cs).1⟩], []) := by
  rw [parseRecord.eq_def]
  split
  next r2 heq => exact ((hn1 r2 heq).elim)
  next r2 heq => exact ((hn2 r2 heq).elim)
  next r2 hnot heq => exact ((hn3 r2 heq).elim)
  next r2 heq => exact ((hn4 r2 heq).elim)
  next h1 h2 h3 h4 => rfl

theorem parseRecord_progress :
    ∀ cs : List Char, cs ≠ [] → (parseRecord cs).2.length < cs.length := by
  intro cs0
  induction cs0 using parseRecord.induct with
  | case1 cs rest heq ih =>
    intro hne
    have h2 : parseField cs = ((parseField cs).1, ',' :: rest) := by rw [← heq]
    rw [parseRecord_comma cs _ rest h2]
    have hl := parseField_len cs
    rw [heq] at hl
    simp only [List.length_cons] at hl
    by_cases hr : rest = []
    · subst hr
      rw [parseRecord_other [] (by simp [parseField]) (by simp [parseField])
        (by simp [parseField]) (by simp [parseField])]
      simpa using hl
    · have := ih hr
      simp only [Prod.snd]
      omega
  | case2 cs rest heq =>
    intro hne
    have h2 : parseField cs = ((parseField cs).1, '\r' :: '\n' :: rest) := by rw [← heq]
    rw [parseRecord_crlf cs _ rest h2]
    have hl := parseField_len cs
    rw [heq] at hl
    simp only [List.length_cons] at hl
    simp only [Prod.snd]
    omega
  | case3 cs rest hnot heq =>
    intro hne
    have h2 : parseField cs = ((parseField cs).1, '\r' :: rest) := by rw [← heq]
    rw [parseRecord_cr cs _ rest h2 (fun r2 hr2 => hnot r2 hr2)]
    have hl := parseField_len cs
    rw [heq] at hl
    simp only [List.length_cons] at hl
    simp only [Prod.snd]
    omega
  | case4 cs rest heq =>
    intro hne
    have h2 : parseField cs = ((parseField cs).1, '\n' :: rest) := by rw [← heq]
    rw [parseRecord_lf cs _ rest h2]
    have hl := parseField_len cs
    rw [heq] at hl
    simp only [List.length_cons] at hl
    simp only [Prod.snd]
    omega
  | case5 cs hn1 hn2 hn3 hn4 =>
    intro hne
    rw [parseRecord_other cs (fun r hr => hn1 r hr) (fun r hr => hn2 r hr)
      (fun r hr => hn3 r hr) (fun r hr => hn4 r hr)]
    simpa using List.length_pos.mpr hne

/-- parseCsvList reads the whole file content as a list of records,
modelling iteration over a Python csv.reader. -/
def parseCsvList (cs : List Char) : List (List String) :=
  if h : cs = [] then []
  else (parseRecord cs).1 :: parseCsvList (parseRecord cs).2
termination_by cs.length
decreasing_by
  exact parseRecord_progress cs h

theorem parseCsvList_nil : parseCsvList [] = [] := by
  rw [parseCsvList.eq_def]
  rfl

theorem parseCsvList_cons (cs : List Char) (hne : cs ≠ []) :
    parseCsvList cs = (parseRecord cs).1 :: parseCsvList (parseRecord cs).2 := by
  rw [parseCsvList.eq_def]
  rw [dif_neg hne]

/-- parseCsv reads a CSV file content back into its rows. -/
def parseCsv (s : String) : List (List String) := parseCsvList s.data

/-! Round-trip lemmas: the reader model inverts the writer model. -/

/-- stopsField holds of the text that may legally follow a rendered
field in the writer output: nothing, a delimiter, or the record
terminator. -/
def stopsField : List Char → Prop
  | [] => True
  | c :: _ => c = ',' ∨ c = '\r'

theorem parseBare_roundtrip (cs : List Char) :
    ∀ rest : List Char, (∀ c ∈ cs, isCsvSpecial c = false) → stopsField rest →
      parseBare (cs ++ rest) = (cs, rest) := by
  induction cs with
  | nil =>
    intro rest _ hrest
    simp only [List.nil_append]
    match rest with
    | [] => simp [parseBare]
    | c :: r2 =>
      have hc : c = ',' ∨ c = '\r' ∨ c = '\n' := by
        rcases hrest with h | h
        · exact Or.inl h
        · exact Or.inr (Or.inl h)
      simp [parseBare, hc]
  | cons c cs2 ih =>
    intro rest hcs hrest
    have hc := hcs c (by simp)
    simp only [isCsvSpecial, Bool.or_eq_false_iff, decide_eq_false_iff_not] at hc
    obtain ⟨⟨⟨hc1, hc2⟩, hc3⟩, hc4⟩ := hc
    have hcond : ¬ (c = ',' ∨ c = '\r' ∨ c = '\n') := by
      rintro (h | h | h)
      · exact hc1 h
      · exact hc3 h
      · exact hc4 h
    simp only [List.cons_append]
    simp only [parseBare, if_neg hcond]
    rw [ih rest (fun x hx => hcs x (by simp [hx])) hrest]

theorem escapeQuotes_cons_quote (cs : List Char) :
    escapeQuotes ('"' :: cs) = '"' :: '"' :: escapeQuotes cs := by
  simp [escapeQuotes]

theorem escapeQuotes_cons_other (c : Char) (cs : List Char) (hc : c ≠ '"') :
    escapeQuotes (c :: cs) = c :: escapeQuotes cs := by
  simp [escapeQuotes, hc]

theorem parseQuoted_dquote (acc rest2 : List Char) :
    parseQuoted acc ('"' :: '"' :: rest2) = parseQuoted ('"' :: acc) rest2 := by
  conv_lhs => rw [parseQuoted.eq_def]
  simp

theorem parseQuoted_roundtrip (cs : List Char) :
    ∀ (acc rest : List Char), stopsField rest →
      parseQuoted acc (escapeQuotes cs ++ '"' :: rest) = (acc.reverse ++ cs, rest) := by
  induction cs with
  | nil =>
    intro acc rest hrest
    simp only [escapeQuotes, List.nil_append]
    rw [parseQuoted_close acc rest ?hne]
    · simp
    case hne =>
      intro r2 hr2
      subst hr2
      simp [stopsField] at hrest
  | cons c cs2 ih =>
    intro acc rest hrest
    by_cases hc : c = '"'
    · subst hc
      rw [escapeQuotes_cons_quote, List.cons_append, List.cons_append,
        parseQuoted_dquote acc (escapeQuotes cs2 ++ '"' :: rest),
        ih ('"' :: acc) rest hrest]
      simp
    · rw [escapeQuotes_cons_other c cs2 hc, List.cons_append,
        parseQuoted_step acc c _ hc, ih (c :: acc) rest hrest]
      simp

theorem parseField_roundtrip (s : String) (rest : List Char) (hrest : stopsField rest) :
    parseField (renderField s ++ rest) = (s.data, rest) := by
  by_cases hq : s.data.any isCsvSpecial
  · simp only [renderField, if_pos hq, List.cons_append, List.append_assoc,
      List.nil_append]
    simp only [parseField, if_pos rfl]
    rw [parseQuoted_roundtrip s.data [] rest hrest]
    simp
  · simp only [renderField, if_neg hq]
    have hall : ∀ c ∈ s.data, isCsvSpecial c = false := by
      intro c hcmem
      by_contra hcontra
      exact hq (List.any_eq_true.mpr ⟨c, hcmem, by simpa using hcontra⟩)
    match hsd : s.data with
    | [] =>
      simp only [List.nil_append]
      match rest with
      | [] => simp [parseField]
      | c :: r2 =>
        have hne : ¬ c = '"' := by
          rcases hrest with h | h <;> (subst h; decide)
        have hc : c = ',' ∨ c = '\r' ∨ c = '\n' := by
          rcases hrest with h | h
          · exact Or.inl h
          · exact Or.inr (Or.inl h)
        simp only [parseField, if_neg hne]
        simp [parseBare, hc]
    | c :: cs2 =>
      have hc := hall c (by rw [hsd]; simp)
      have hne : ¬ c = '"' := by
        intro hcc
        rw [hcc] at hc
        simp [isCsvSpecial] at hc
      simp only [List.cons_append, parseField, if_neg hne]
      rw [← List.cons_append]
      exact parseBare_roundtrip (c :: cs2) rest (by rw [← hsd]; exact hall) hrest

theorem renderRowChars_single (f : String) :
    renderRowChars [f] = renderField f ++ ['\r', '\n'] := by
  simp [renderRowChars]

theorem renderRowChars_cons_cons (f f2 : String) (fs : List String) :
    renderRowChars (f :: f2 :: fs) = renderField f ++ ',' :: renderRowChars (f2 :: fs) := by
  simp [renderRowChars]

theorem renderRowChars_ne_nil (row : List String) : renderRowChars row ≠ [] := by
  match row with
  | [] => simp [renderRowChars]
  | [f] => rw [renderRowChars_single]; simp
  | f :: f2 :: fs => rw [renderRowChars_cons_cons]; simp

theorem parseRecord_roundtrip (fields : List String) :
    ∀ (f : String) (rest : List Char),
      parseRecord (renderRowChars (f :: fields) ++ rest) = (f :: fields, rest) := by
  induction fields with
  | nil =>
    intro f rest
    rw [renderRowChars_single, List.append_assoc]
    have hcrlf : (['\r', '\n'] : List Char) ++ rest = '\r' :: '\n' :: rest := rfl
    rw [hcrlf]
    have hf := parseField_roundtrip f ('\r' :: '\n' :: rest) (Or.inr rfl)
    rw [parseRecord_crlf _ f.data rest hf]
  | cons f2 fs ih =>
    intro f rest
    rw [renderRowChars_cons_cons, List.append_assoc, List.cons_append]
    have hf := parseField_roundtrip f (',' :: (renderRowChars (f2 :: fs) ++ rest))
      (Or.inl rfl)
    rw [parseRecord_comma _ f.data _ hf, ih f2 rest]

theorem parseCsvList_roundtrip (rows : List (List String)) :
    (∀ row ∈ rows, row ≠ []) → parseCsvList (csvContentChars rows) = rows := by
  induction rows with
  | nil => intro _; simp [csvContentChars, parseCsvList_nil]
  | cons row rows ih =>
    intro hall
    have hrow := hall row (by simp)
    match hr : row with
    | f :: fields =>
      simp only [csvContentChars]
      rw [parseCsvList_cons _ (by
        intro hcontra
        exact renderRowChars_ne_nil (f :: fields) (List.append_eq_nil.mp hcontra).1)]
      rw [parseRecord_roundtrip fields f (csvContentChars rows)]
      rw [ih (fun r hrm => hall r (by simp [hrm]))]

/-! Shared concrete fixtures and helper lemmas for the claims. -/

/-- d2011 is the datetime of the spec offset example. -/
def d2011 : DateTime := ⟨2011, 5, 4, 13, 2, 0⟩

/-- dOther is a second datetime, distinct from d2011. -/
def dOther : DateTime := ⟨2020, 1, 1, 0, 0, 0⟩

/-- dparseConst is a date-parser stand-in accepting every timestamp. -/
def dparseConst : String → Option DateTime := fun _ => some d2011

/-- dparseNone is a date-parser stand-in rejecting every timestamp. -/
def dparseNone : String → Option DateTime := fun _ => none

/-- dparseCx parses the timestamp t1 as d2011 and everything else as
dOther. -/
def dparseCx : String → Option DateTime :=
  fun ts => if ts = "t1" then some d2011 else some dOther

/-- st0 is the loop state at function entry: no fetches, no entries,
the default empty-string offset. -/
def st0 : LoopState := ⟨0, [], .str ""⟩

/-- pagePage n is a synthetic page-mode listing with n editors and n
timestamps. -/
def pagePage (n : Nat) : PageResponse :=
  ⟨200, List.replicate n "ed", List.replicate n "ts"⟩

/-- userPage n is a synthetic user-mode listing with n timestamps and
n contribution links. -/
def userPage (n : Nat) : UserResponse :=
  ⟨200, List.replicate n "ts", List.replicate n "/wiki/P"⟩

theorem getLast?_replicate (n : Nat) {α : Type} (a : α) (h : n ≠ 0) :
    (List.replicate n a).getLast? = some a := by
  induction n with
  | zero => exact (h rfl).elim
  | succ k ih =>
    match k with
    | 0 => rfl
    | j + 1 =>
      rw [List.replicate_succ, List.replicate_succ, List.getLast?_cons_cons,
        ← List.replicate_succ]
      exact ih (Nat.succ_ne_zero j)

theorem extractTitles_replicate (n : Nat) (u t : String) (h : titleFromUrl u = some t) :
    extractTitles (List.replicate n u) = some (List.replicate n t) := by
  induction n with
  | zero => rfl
  | succ k ih =>
    rw [List.replicate_succ, List.replicate_succ]
    simp [extractTitles, h, ih]

theorem extractTitles_length (hrefs : List String) :
    ∀ titles, extractTitles hrefs = some titles → titles.length = hrefs.length := by
  induction hrefs with
  | nil => intro titles h; simp [extractTitles] at h; simp [← h]
  | cons u rest ih =>
    intro titles h
    simp only [extractTitles] at h
    match hu : titleFromUrl u with
    | none => rw [hu] at h; simp at h
    | some t =>
      rw [hu] at h
      match hr : extractTitles rest with
      | none => rw [hr] at h; simp at h
      | some ts =>
        rw [hr] at h
        simp at h
        rw [← h]
        simp [ih ts hr]

theorem extractTitles_none_of_mem (hrefs : List String) :
    (∃ u ∈ hrefs, titleFromUrl u = none) → extractTitles hrefs = none := by
  induction hrefs with
  | nil => rintro ⟨u, hu, _⟩; simp at hu
  | cons v rest ih =>
    rintro ⟨u, hu, hnone⟩
    simp only [List.mem_cons] at hu
    rcases hu with rfl | hu
    · simp [extractTitles, hnone]
    · simp only [extractTitles]
      match hv : titleFromUrl v with
      | none => simp
      | some t => simp [ih ⟨u, hu, hnone⟩]

theorem pageEntries_length (title : String) (r : PageResponse) :
    (pageEntries title r).length = min r.editors.length r.editTimes.length := by
  simp [pageEntries]

theorem userEntriesFrom_length (username : String) (editTimes titles : List String) :
    (userEntriesFrom username editTimes titles).length =
      min editTimes.length titles.length := by
  simp [userEntriesFrom]

theorem pagePage_entries_length (title : String) (n : Nat) :
    (pageEntries title (pagePage n)).length = n := by
  simp [pageEntries_length, pagePage]

theorem userPage_titles (n : Nat) :
    extractTitles (userPage n).contribHrefs = some (List.replicate n "P") :=
  extractTitles_replicate n "/wiki/P" "P" (by decide)

theorem userPage_entries_length (username : String) (n : Nat) :
    (userEntriesFrom username (userPage n).editTimes (List.replicate n "P")).length = n := by
  simp [userEntriesFrom_length, userPage]

/-! Claim theorems. -/

/-- pOracle3 is the synthetic page-mode fixture of the spec: pages of
sizes 500, 500 and 137 with limit 500. -/
def pOracle3 : List (Fetch PageResponse) :=
  [.resp (pagePage 500), .resp (pagePage 500), .resp (pagePage 137)]

/-- uOracle3 is the synthetic user-mode fixture: pages of sizes 500,
500 and 137 with limit 500. -/
def uOracle3 : List (Fetch UserResponse) :=
  [.resp (userPage 500), .resp (userPage 500), .resp (userPage 137)]

/-- pE3 is the record sequence the page-mode fixture run yields. -/
def pE3 : List Triple :=
  pageEntries "T" (pagePage 500) ++ pageEntries "T" (pagePage 500) ++
    pageEntries "T" (pagePage 137)

/-- uE3 is the record sequence the user-mode fixture run yields. -/
def uE3 : List Triple :=
  userEntriesFrom "U" (userPage 500).editTimes (List.replicate 500 "P") ++
    userEntriesFrom "U" (userPage 500).editTimes (List.replicate 500 "P") ++
    userEntriesFrom "U" (userPage 137).editTimes (List.replicate 137 "P")

/-- C1: in both pagination loops, a fetched page whose extracted
batch is strictly shorter than limit is the last one processed — the
loop breaks right there regardless of any further oracle content —
and on the synthetic fixture of pages with 500, 500 and 137 records
at limit 500, each loop performs exactly 3 fetches and finishes with
exactly 1137 records. -/
theorem C1_pagination_stops_on_short_page :
    (∀ (dparse : String → Option DateTime) (title : String) (limit : Nat)
       (st : LoopState) (r : PageResponse) (rest : List (Fetch PageResponse)),
       (pageEntries title r).length < limit →
       pageTryLoop dparse title limit st (.resp r :: rest) =
         .broke ⟨st.fetches + 1, st.entries ++ pageEntries title r, st.offset⟩) ∧
    (∀ (dparse : String → Option DateTime) (username : String) (limit : Nat)
       (st : LoopState) (r : UserResponse) (rest : List (Fetch UserResponse))
       (titles : List String),
       ¬ (400 ≤ r.status ∧ r.status < 600) →
       extractTitles r.contribHrefs = some titles →
       (userEntriesFrom username r.editTimes titles).length < limit →
       userTryLoop dparse username limit st (.resp r :: rest) =
         .broke ⟨st.fetches + 1, st.entries ++ userEntriesFrom username r.editTimes titles,
           st.offset⟩) ∧
    (pageTryLoop dparseConst "T" 500 st0 pOracle3 =
       .broke ⟨3, pE3, .int (deriveOffset d2011)⟩ ∧ pE3.length = 1137) ∧
    (userTryLoop dparseConst "U" 500 st0 uOracle3 =
       .broke ⟨3, uE3, .int (deriveOffset d2011)⟩ ∧ uE3.length = 1137) := by
  refine ⟨fun dparse title limit st r rest h =>
      pageTryLoop_short dparse title limit st r rest h,
    fun dparse username limit st r rest titles hs hT h =>
      userTryLoop_short dparse username limit st r rest titles hs hT h, ⟨?_, ?_⟩, ⟨?_, ?_⟩⟩
  · rw [show pOracle3 =
        .resp (pagePage 500) :: [.resp (pagePage 500), .resp (pagePage 137)] from rfl,
      pageTryLoop_full dparseConst "T" 500 st0 (pagePage 500) _ "ts" d2011
        (by rw [pagePage_entries_length]; norm_num)
        (by simp only [pagePage]; exact getLast?_replicate 500 "ts" (by norm_num)) rfl,
      pageTryLoop_full dparseConst "T" 500 _ (pagePage 500) _ "ts" d2011
        (by rw [pagePage_entries_length]; norm_num)
        (by simp only [pagePage]; exact getLast?_replicate 500 "ts" (by norm_num)) rfl,
      pageTryLoop_short dparseConst "T" 500 _ (pagePage 137) _
        (by rw [pagePage_entries_length]; norm_num)]
    rfl
  · simp only [pE3, List.length_append, pagePage_entries_length]
  · rw [show uOracle3 =
        .resp (userPage 500) :: [.resp (userPage 500), .resp (userPage 137)] from rfl,
      userTryLoop_full dparseConst "U" 500 st0 (userPage 500) _
        (List.replicate 500 "P") "ts" d2011 (by simp only [userPage]; decide)
        (userPage_titles 500)
        (by rw [userPage_entries_length]; norm_num)
        (by simp only [userPage]; exact getLast?_replicate 500 "ts" (by norm_num)) rfl,
      userTryLoop_full dparseConst "U" 500 _ (userPage 500) _
        (List.replicate 500 "P") "ts" d2011 (by simp only [userPage]; decide)
        (userPage_titles 500)
        (by rw [userPage_entries_length]; norm_num)
        (by simp only [userPage]; exact getLast?_replicate 500 "ts" (by norm_num)) rfl,
      userTryLoop_short dparseConst "U" 500 _ (userPage 137) _
        (List.replicate 137 "P") (by simp only [userPage]; decide) (userPage_titles 137)
        (by rw [userPage_entries_length]; norm_num)]
    rfl
  · simp only [uE3, List.length_append, userPage_entries_length]

/-- C1 witness: the page-mode break fires at a concrete short page
and the user-mode break at a concrete short contributions page. -/
theorem C1_pagination_stops_on_short_page_witness :
    pageTryLoop dparseConst "T" 500 st0 [.resp (pagePage 137)] =
      .broke ⟨st0.fetches + 1, st0.entries ++ pageEntries "T" (pagePage 137),
        st0.offset⟩ ∧
    userTryLoop dparseConst "U" 500 st0 [.resp (userPage 137)] =
      .broke ⟨st0.fetches + 1,
        st0.entries ++ userEntriesFrom "U" (userPage 137).editTimes (List.replicate 137 "P"),
        st0.offset⟩ :=
  ⟨C1_pagination_stops_on_short_page.1 dparseConst "T" 500 st0 (pagePage 137) []
      (by rw [pagePage_entries_length]; norm_num),
    C1_pagination_stops_on_short_page.2.1 dparseConst "U" 500 st0 (userPage 137) []
      (List.replicate 137 "P") (by simp only [userPage]; decide) (userPage_titles 137)
      (by rw [userPage_entries_length]; norm_num)⟩

/-- C2: when the network fault arrives at fetch N (after N-1 full,
parseable pages), both functions return exactly the records
accumulated from fetches 1..N-1 as a normal result — the fault never
reaches the caller. -/
theorem C2_network_fault_keeps_prior_records :
    (∀ (dparse : String → Option DateTime) (url off : String) (limit : Nat)
       (title : String) (goods : List PageResponse) (rest : List (Fetch PageResponse)),
       titleFromUrl url = some title →
       (∀ r ∈ goods, FullGoodPage dparse title limit r) →
       get_page_history dparse (goods.map .resp ++ .fail :: rest) url off limit =
         some (.ok (goods.map (pageEntries title)).flatten)) ∧
    (∀ (dparse : String → Option DateTime) (username off : String) (limit : Nat)
       (goods : List UserResponse) (rest : List (Fetch UserResponse)),
       (∀ r ∈ goods, FullGoodUser dparse username limit r) →
       get_user_edit_history dparse (goods.map .resp ++ .fail :: rest) username off limit =
         some (.ok (goods.map (userEntries username)).flatten)) := by
  constructor
  · intro dparse url off limit title goods rest htitle hall
    obtain ⟨off2, hrun⟩ := pageTryLoop_run dparse title limit goods hall
      ⟨0, [], .str off⟩ (.fail :: rest)
    simp only [get_page_history, htitle]
    rw [hrun, pageTryLoop_fail]
    simp [finallyReturn, TryOutcome.state]
  · intro dparse username off limit goods rest hall
    obtain ⟨off2, hrun⟩ := userTryLoop_run dparse username limit goods hall
      ⟨0, [], .str off⟩ (.fail :: rest)
    simp only [get_user_edit_history]
    rw [hrun, userTryLoop_fail]
    simp [finallyReturn, TryOutcome.state]

/-- C2 witness: one full page then a network fault yields exactly the
first page of records in both modes. -/
theorem C2_network_fault_keeps_prior_records_witness :
    get_page_history dparseConst [.resp (pagePage 500), .fail] "/wiki/T" "" 500 =
      some (.ok ([pagePage 500].map (pageEntries "T")).flatten) ∧
    get_user_edit_history dparseConst [.resp (userPage 500), .fail] "U" "" 500 =
      some (.ok ([userPage 500].map (userEntries "U")).flatten) :=
  ⟨C2_network_fault_keeps_prior_records.1 dparseConst "/wiki/T" "" 500 "T" [pagePage 500] []
      (by decide)
      (by
        intro r hr
        rw [List.mem_singleton] at hr
        subst hr
        exact ⟨by rw [pagePage_entries_length]; norm_num,
          "ts", d2011,
          by simp only [pagePage]; exact getLast?_replicate 500 "ts" (by norm_num), rfl⟩),
    C2_network_fault_keeps_prior_records.2 dparseConst "U" "" 500 [userPage 500] []
      (by
        intro r hr
        rw [List.mem_singleton] at hr
        subst hr
        refine ⟨by simp only [userPage]; decide, ⟨List.replicate 500 "P", userPage_titles 500⟩,
          ?_, "ts", d2011,
          by simp only [userPage]; exact getLast?_replicate 500 "ts" (by norm_num), rfl⟩
        rw [userEntries_of_extract "U" (userPage 500) _ (userPage_titles 500),
          userPage_entries_length]
        norm_num)⟩

/-- C9: every exception raised inside the try body of either
pagination loop — network fault, bad status, unparseable timestamp,
missing timestamp column, or an unmatchable contribution link — is
discarded by the return statement in the finally block: the function
returns the entries accumulated at the moment of the fault and the
caller sees a normal result. -/
theorem C9_finally_swallows_every_exception :
    (∀ (dparse : String → Option DateTime) (oracle : List (Fetch PageResponse))
       (url off : String) (limit : Nat) (title : String) (e : Exn) (s : LoopState),
       titleFromUrl url = some title →
       pageTryLoop dparse title limit ⟨0, [], .str off⟩ oracle = .raised e s →
       get_page_history dparse oracle url off limit = some (.ok s.entries)) ∧
    (∀ (dparse : String → Option DateTime) (oracle : List (Fetch UserResponse))
       (username off : String) (limit : Nat) (e : Exn) (s : LoopState),
       userTryLoop dparse username limit ⟨0, [], .str off⟩ oracle = .raised e s →
       get_user_edit_history dparse oracle username off limit = some (.ok s.entries)) := by
  constructor
  · intro dparse oracle url off limit title e s htitle hloop
    simp [get_page_history, htitle, hloop, finallyReturn, TryOutcome.state]
  · intro dparse oracle username off limit e s hloop
    simp [get_user_edit_history, hloop, finallyReturn, TryOutcome.state]

/-- C9 witness: a full page whose last timestamp the date parser
rejects (a non-network fault) still yields a normal result carrying
the records of that page, in both modes. -/
theorem C9_finally_swallows_every_exception_witness :
    get_page_history dparseNone [.resp ⟨200, ["e"], ["t"]⟩] "/wiki/T" "" 1 =
      some (.ok [("e", "t", "T")]) ∧
    get_user_edit_history dparseNone [.resp ⟨200, ["t"], ["/wiki/P"]⟩] "U" "" 1 =
      some (.ok [("U", "t", "P")]) :=
  ⟨C9_finally_swallows_every_exception.1 dparseNone [.resp ⟨200, ["e"], ["t"]⟩]
      "/wiki/T" "" 1 "T" .parseError ⟨1, [("e", "t", "T")], .str ""⟩ (by decide) (by decide),
    C9_finally_swallows_every_exception.2 dparseNone [.resp ⟨200, ["t"], ["/wiki/P"]⟩]
      "U" "" 1 .parseError ⟨1, [("U", "t", "P")], .str ""⟩ (by decide)⟩

/-- C5: when the title regex finds no last nonempty path segment in
the supplied URL, get_page_history raises ValueError before its loop:
the result is the error for every oracle — in particular it does not
depend on the network at all, so no fetch is issued and no records
are produced. -/
theorem C5_no_title_raises_before_any_fetch :
    ∀ (dparse : String → Option DateTime) (oracle : List (Fetch PageResponse))
      (url off : String) (limit : Nat),
      titleFromUrl url = none →
      get_page_history dparse oracle url off limit = some (.error .valueError) ∧
      (∀ oracle2, get_page_history dparse oracle url off limit =
        get_page_history dparse oracle2 url off limit) := by
  intro dparse oracle url off limit h
  constructor
  · simp [get_page_history, h]
  · intro oracle2
    simp [get_page_history, h]

/-- C5 witness: a URL whose every slash is final has no title; the
call fails with ValueError and ignores the oracle. -/
theorem C5_no_title_raises_before_any_fetch_witness :
    get_page_history dparseConst [.resp (pagePage 3)] "abc/" "" 500 =
      some (.error .valueError) ∧
    (∀ oracle2, get_page_history dparseConst [.resp (pagePage 3)] "abc/" "" 500 =
      get_page_history dparseConst oracle2 "abc/" "" 500) :=
  C5_no_title_raises_before_any_fetch dparseConst [.resp (pagePage 3)] "abc/" "" 500
    (by decide)

/-- C6: in user-contributions mode, a contribution href on which the
title regex finds no match makes the whole extraction comprehension
raise AttributeError: the batch of the current fetch is discarded
entirely (the loop state keeps only previously accumulated entries)
and the loop ends with that exception in flight. -/
theorem C6_no_match_href_aborts_batch :
    ∀ (dparse : String → Option DateTime) (username : String) (limit : Nat)
      (st : LoopState) (r : UserResponse) (rest : List (Fetch UserResponse)),
      ¬ (400 ≤ r.status ∧ r.status < 600) →
      (∃ u ∈ r.contribHrefs, titleFromUrl u = none) →
      userTryLoop dparse username limit st (.resp r :: rest) =
        .raised .attributeError ⟨st.fetches + 1, st.entries, st.offset⟩ := by
  intro dparse username limit st r rest hs hex
  exact userTryLoop_noMatch dparse username limit st r rest hs
    (extractTitles_none_of_mem r.contribHrefs hex)

/-- C6 witness: a contributions page carrying one link without any
path segment aborts its batch even though a timestamp is present. -/
theorem C6_no_match_href_aborts_batch_witness :
    userTryLoop dparseConst "U" 500 st0 [.resp ⟨200, ["t1"], ["NoSlashHere"]⟩] =
      .raised .attributeError ⟨st0.fetches + 1, st0.entries, st0.offset⟩ :=
  C6_no_match_href_aborts_batch dparseConst "U" 500 st0 ⟨200, ["t1"], ["NoSlashHere"]⟩ []
    (by decide) (by decide)

/-- C7: the title regex recovers the last slash-delimited nonempty
path segment: the initial target URL yields its page title, and a
contribution link ending in /wiki/Some_Page yields Some_Page. -/
theorem C7_title_recovery_examples :
    titleFromUrl "https://en.wikipedia.org/wiki/A_Troublesome_Inheritance" =
      some "A_Troublesome_Inheritance" ∧
    titleFromUrl "https://en.wikipedia.org/wiki/Some_Page" = some "Some_Page" := by
  decide

/-- C10: the page-mode loop never reads the response status — its
behaviour is identical for any two status codes, and a 404 listing
parses like any page, terminating normally when short — while the
user-mode loop calls raise_for_status, so any status in [400, 600)
raises a RequestException that ends pagination with the entries
accumulated so far. -/
theorem C10_status_handling_differs_between_modes :
    (∀ (dparse : String → Option DateTime) (title : String) (limit : Nat)
       (st : LoopState) (s1 s2 : Nat) (ed et : List String)
       (rest : List (Fetch PageResponse)),
       pageTryLoop dparse title limit st (.resp ⟨s1, ed, et⟩ :: rest) =
         pageTryLoop dparse title limit st (.resp ⟨s2, ed, et⟩ :: rest)) ∧
    (pageTryLoop dparseConst "T" 500 st0 [.resp ⟨404, ["e"], ["t"]⟩] =
       .broke ⟨1, [("e", "t", "T")], .str ""⟩) ∧
    (∀ (dparse : String → Option DateTime) (username : String) (limit : Nat)
       (st : LoopState) (r : UserResponse) (rest : List (Fetch UserResponse)),
       400 ≤ r.status → r.status < 600 →
       userTryLoop dparse username limit st (.resp r :: rest) =
         .raised .requestError ⟨st.fetches + 1, st.entries, st.offset⟩) ∧
    (get_user_edit_history dparseConst [.resp ⟨404, ["t"], ["/wiki/P"]⟩] "U" "" 500 =
       some (.ok [])) := by
  refine ⟨fun dparse title limit st s1 s2 ed et rest => rfl, by decide,
    fun dparse username limit st r rest h4 h6 =>
      userTryLoop_badStatus dparse username limit st r rest ⟨h4, h6⟩, rfl⟩

/-- C10 witness: a 500-status contributions response raises the
request fault immediately. -/
theorem C10_status_handling_differs_between_modes_witness :
    userTryLoop dparseConst "U" 500 st0 [.resp ⟨500, ["t"], ["/wiki/P"]⟩] =
      .raised .requestError ⟨st0.fetches + 1, st0.entries, st0.offset⟩ :=
  C10_status_handling_differs_between_modes.2.2.1 dparseConst "U" 500 st0
    ⟨500, ["t"], ["/wiki/P"]⟩ [] (by norm_num) (by norm_num)

/-- C3 counterexample: a full page whose two columns differ in length
refutes the claim that the next offset comes from the timestamp of
the last extracted record. The page has one editor and two
timestamps, so the single extracted record carries timestamp t1,
which the ambient parser reads as d2011 — yet the loop recomputes the
offset from the last entry of the raw timestamp column (t2), giving
deriveOffset dOther, which differs from deriveOffset d2011. -/
theorem C3_counterexample_offset_from_column_not_record :
    (pageEntries "T" ⟨200, ["a"], ["t1", "t2"]⟩).getLast? = some ("a", "t1", "T") ∧
    dparseCx "t1" = some d2011 ∧
    ¬ (pageEntries "T" ⟨200, ["a"], ["t1", "t2"]⟩).length < 1 ∧
    pageTryLoop dparseCx "T" 1 st0 [.resp ⟨200, ["a"], ["t1", "t2"]⟩] =
      .fuelOut ⟨1, [("a", "t1", "T")], .int (deriveOffset dOther)⟩ ∧
    deriveOffset dOther ≠ deriveOffset d2011 := by
  decide

/-- C3 amended: when a fetched page is full, the next offset is
derived by parsing the LAST ENTRY OF THE EXTRACTED TIMESTAMP COLUMN
(which coincides with the timestamp of the last extracted record
whenever the two columns have equal length) and formatting it as the
yyyyMMddHHmmss numeral; in particular a timestamp parsing as
2011-05-04T13:02:00 yields next offset 20110504130200. -/
theorem C3_next_offset_from_timestamp_column :
    (∀ (dparse : String → Option DateTime) (title : String) (limit : Nat)
       (st : LoopState) (r : PageResponse) (rest : List (Fetch PageResponse))
       (ts : String) (d : DateTime),
       ¬ (pageEntries title r).length < limit →
       r.editTimes.getLast? = some ts →
       dparse ts = some d →
       pageTryLoop dparse title limit st (.resp r :: rest) =
         pageTryLoop dparse title limit
           ⟨st.fetches + 1, st.entries ++ pageEntries title r,
             .int (deriveOffset d)⟩ rest) ∧
    (∀ (dparse : String → Option DateTime) (username : String) (limit : Nat)
       (st : LoopState) (r : UserResponse) (rest : List (Fetch UserResponse))
       (titles : List String) (ts : String) (d : DateTime),
       ¬ (400 ≤ r.status ∧ r.status < 600) →
       extractTitles r.contribHrefs = some titles →
       ¬ (userEntriesFrom username r.editTimes titles).length < limit →
       r.editTimes.getLast? = some ts →
       dparse ts = some d →
       userTryLoop dparse username limit st (.resp r :: rest) =
         userTryLoop dparse username limit
           ⟨st.fetches + 1, st.entries ++ userEntriesFrom username r.editTimes titles,
             .int (deriveOffset d)⟩ rest) ∧
    deriveOffset d2011 = 20110504130200 := by
  exact ⟨pageTryLoop_full, userTryLoop_full, by decide⟩

/-- C3 witness: a concrete full page advances with offset derived
from the parse of the timestamp column tail. -/
theorem C3_next_offset_from_timestamp_column_witness :
    pageTryLoop dparseConst "T" 1 st0 [.resp ⟨200, ["e"], ["t"]⟩] =
      pageTryLoop dparseConst "T" 1
        ⟨st0.fetches + 1, st0.entries ++ pageEntries "T" ⟨200, ["e"], ["t"]⟩,
          .int (deriveOffset d2011)⟩ [] :=
  C3_next_offset_from_timestamp_column.1 dparseConst "T" 1 st0 ⟨200, ["e"], ["t"]⟩ []
    "t" d2011 (by decide) (by decide) rfl

/-- C4: extraction zips the two columns, so each page contributes
exactly the pairs of the common prefix of length min of the two
column lengths — a length mismatch is silently truncated, not an
error — and over a whole run the output count is the sum of those
minima across all fetched pages. -/
theorem C4_zip_truncates_to_min :
    (∀ (title : String) (r : PageResponse),
       (pageEntries title r).length = min r.editors.length r.editTimes.length) ∧
    (∀ (title : String) (r : PageResponse),
       pageEntries title r =
         ((r.editors.take (min r.editors.length r.editTimes.length)).zip
           (r.editTimes.take (min r.editors.length r.editTimes.length))).map
             (fun et => (et.1, et.2, title))) ∧
    (∀ (username : String) (r : UserResponse) (titles : List String),
       extractTitles r.contribHrefs = some titles →
       (userEntries username r).length =
         min r.editTimes.length r.contribHrefs.length) ∧
    (∀ (dparse : String → Option DateTime) (url off : String) (limit : Nat)
       (title : String) (goods : List PageResponse) (rS : PageResponse)
       (rest : List (Fetch PageResponse)),
       titleFromUrl url = some title →
       (∀ r ∈ goods, FullGoodPage dparse title limit r) →
       (pageEntries title rS).length < limit →
       ∃ entries,
         get_page_history dparse (goods.map .resp ++ .resp rS :: rest) url off limit =
           some (.ok entries) ∧
         entries.length =
           (goods.map (fun r => min r.editors.length r.editTimes.length)).sum +
             min rS.editors.length rS.editTimes.length) ∧
    (∀ (dparse : String → Option DateTime) (username off : String) (limit : Nat)
       (goods : List UserResponse) (rS : UserResponse) (titlesS : List String)
       (rest : List (Fetch UserResponse)),
       (∀ r ∈ goods, FullGoodUser dparse username limit r) →
       ¬ (400 ≤ rS.status ∧ rS.status < 600) →
       extractTitles rS.contribHrefs = some titlesS →
       (userEntriesFrom username rS.editTimes titlesS).length < limit →
       ∃ entries,
         get_user_edit_history dparse (goods.map .resp ++ .resp rS :: rest)
           username off limit = some (.ok entries) ∧
         entries.length =
           (goods.map (fun r => (userEntries username r).length)).sum +
             min rS.editTimes.length rS.contribHrefs.length) := by
  refine ⟨pageEntries_length, ?_, ?_, ?_, ?_⟩
  · intro title r
    simp only [pageEntries]
    rw [List.zip_eq_zip_take_min]
  · intro username r titles hT
    rw [userEntries_of_extract username r titles hT, userEntriesFrom_length,
      extractTitles_length r.contribHrefs titles hT]
  · intro dparse url off limit title goods rS rest htitle hall hshort
    obtain ⟨off2, hrun⟩ := pageTryLoop_run dparse title limit goods hall
      ⟨0, [], .str off⟩ (.resp rS :: rest)
    refine ⟨(goods.map (pageEntries title)).flatten ++ pageEntries title rS, ?_, ?_⟩
    · simp only [get_page_history, htitle]
      rw [hrun, pageTryLoop_short dparse title limit _ rS rest hshort]
      simp [finallyReturn, TryOutcome.state]
    · rw [List.length_append, List.length_flatten, List.map_map]
      rw [pageEntries_length]
      congr 1
      apply congrArg
      apply List.map_congr_left
      intro r _
      simp [pageEntries_length]
  · intro dparse username off limit goods rS titlesS rest hall hsS hTS hshortS
    obtain ⟨off2, hrun⟩ := userTryLoop_run dparse username limit goods hall
      ⟨0, [], .str off⟩ (.resp rS :: rest)
    refine ⟨(goods.map (userEntries username)).flatten ++
      userEntriesFrom username rS.editTimes titlesS, ?_, ?_⟩
    · simp only [get_user_edit_history]
      rw [hrun, userTryLoop_short dparse username limit _ rS rest titlesS hsS hTS hshortS]
      simp [finallyReturn, TryOutcome.state]
    · rw [List.length_append, List.length_flatten, List.map_map]
      rw [userEntriesFrom_length, extractTitles_length rS.contribHrefs titlesS hTS]
      rfl

/-- C4 witness: a page listing with three editors and two timestamps
yields exactly two records, and the full run count adds the minima. -/
theorem C4_zip_truncates_to_min_witness :
    (pageEntries "T" ⟨200, ["a", "b", "c"], ["t1", "t2"]⟩).length =
      min (["a", "b", "c"] : List String).length (["t1", "t2"] : List String).length ∧
    (userEntries "U" ⟨200, ["t1", "t2"], ["/wiki/P"]⟩).length =
      min (["t1", "t2"] : List String).length (["/wiki/P"] : List String).length ∧
    ∃ entries,
      get_page_history dparseConst [.resp ⟨200, ["a", "b", "c"], ["t1", "t2"]⟩]
        "/wiki/T" "" 500 = some (.ok entries) ∧
      entries.length =
        (([] : List PageResponse).map
          (fun r => min r.editors.length r.editTimes.length)).sum +
          min (["a", "b", "c"] : List String).length (["t1", "t2"] : List String).length :=
  ⟨C4_zip_truncates_to_min.1 "T" ⟨200, ["a", "b", "c"], ["t1", "t2"]⟩,
    C4_zip_truncates_to_min.2.2.1 "U" ⟨200, ["t1", "t2"], ["/wiki/P"]⟩ ["P"] (by decide),
    C4_zip_truncates_to_min.2.2.2.1 dparseConst "/wiki/T" "" 500 "T" []
      ⟨200, ["a", "b", "c"], ["t1", "t2"]⟩ [] (by decide) (by simp) (by decide)⟩

/-- C8: for every ordered input sequence of triples, the writer
produces content whose first row is the fixed header
editor,timestamp,page followed by one row per triple in input order;
parsing the content back (the csv.reader model) recovers exactly
those rows in the same order; and writing replaces whatever content
the file system previously held at the output path, leaving every
other path untouched. -/
theorem C8_writer_roundtrip_and_overwrite :
    ∀ (editing_history : List Triple) (fs : String → Option String)
      (output_file : String),
      parseCsv (write_tuples_to_csv editing_history) =
        csvHeaders :: editing_history.map rowOfTriple ∧
      write_tuples_to_csv_fs fs editing_history output_file output_file =
        some (write_tuples_to_csv editing_history) ∧
      (∀ p, p ≠ output_file → write_tuples_to_csv_fs fs editing_history output_file p = fs p) := by
  intro editing_history fs output_file
  refine ⟨?_, ?_, ?_⟩
  · show parseCsvList (write_tuples_to_csv editing_history).data = _
    have hdata : (write_tuples_to_csv editing_history).data =
        csvContentChars (csvHeaders :: editing_history.map rowOfTriple) := rfl
    rw [hdata]
    apply parseCsvList_roundtrip
    intro row hrow
    rcases List.mem_cons.mp hrow with rfl | hmem
    · simp [csvHeaders]
    · obtain ⟨t, _, rfl⟩ := List.mem_map.mp hmem
      simp [rowOfTriple]
  · simp [write_tuples_to_csv_fs, writeFileW]
  · intro p hp
    simp [write_tuples_to_csv_fs, writeFileW, hp]

/-- C8 witness: the spec example rows round-trip, the output path
gets the rendered content even though a file was already there, and
an unrelated path keeps its prior content. -/
theorem C8_writer_roundtrip_and_overwrite_witness :
    parseCsv (write_tuples_to_csv
        [("alice", "2020-01-01T00:00:00", "Foo"), ("bob", "2020-01-02T00:00:00", "Bar")]) =
      csvHeaders ::
        [("alice", "2020-01-01T00:00:00", "Foo"),
          ("bob", "2020-01-02T00:00:00", "Bar")].map rowOfTriple ∧
    write_tuples_to_csv_fs (fun _ => some "stale")
        [("alice", "2020-01-01T00:00:00", "Foo"), ("bob", "2020-01-02T00:00:00", "Bar")]
        "out.csv" "out.csv" =
      some (write_tuples_to_csv
        [("alice", "2020-01-01T00:00:00", "Foo"), ("bob", "2020-01-02T00:00:00", "Bar")]) ∧
    write_tuples_to_csv_fs (fun _ => some "stale")
        [("alice", "2020-01-01T00:00:00", "Foo"), ("bob", "2020-01-02T00:00:00", "Bar")]
        "out.csv" "other.csv" = (fun _ => some "stale") "other.csv" :=
  ⟨(C8_writer_roundtrip_and_overwrite
      [("alice", "2020-01-01T00:00:00", "Foo"), ("bob", "2020-01-02T00:00:00", "Bar")]
      (fun _ => some "stale") "out.csv").1,
    (C8_writer_roundtrip_and_overwrite
      [("alice", "2020-01-01T00:00:00", "Foo"), ("bob", "2020-01-02T00:00:00", "Bar")]
      (fun _ => some "stale") "out.csv").2.1,
    (C8_writer_roundtrip_and_overwrite
      [("alice", "2020-01-01T00:00:00", "Foo"), ("bob", "2020-01-02T00:00:00", "Bar")]
      (fun _ => some "stale") "out.csv").2.2 "other.csv" (by decide)⟩
